import Mathlib

/-!
Shallow embedding of the `blockstore` package (a write cache for block
files) and proofs about its operations.

The package consists of two Go files: the API file (cited below as
`src NNN`, the lines of `src/unnamed/part_000`) and the cache helper file
declaring `cacheKey`, `DataCacheEntry`, `FileCacheEntry`, `WriteIntention`,
`CacheEntry`, `writeToPart`, `writeAt`, `withLock`, `modifyFileData`, ...
— the latter is the Go `package blockstore` source appended to
`src/frontend/app/store/wshrpcutil.ts` (its lines 168-513), cited below as
`cache src NNN`.

Go `int64` is modelled as `Int`; Go's `/` and `%` truncate toward zero, so
they are rendered with `Int.tdiv` and `Int.tmod`.  The process-wide
`partDataSize` variable is threaded through as an explicit parameter `P`
(the tests set it to 16, the default is 64 KiB).  `*atomic.Bool` flags
become `Bool` fields, pointers become values, Go maps become association
lists, and a `[]byte` with capacity `partDataSize` becomes a `List Nat`
whose unwritten suffix reads as zeros (a reslice past the length exposes
the zeroed backing array).  Backing-store calls (`dbInsertFile`,
`dbGetFileParts`, ... — not part of this repository's sources) are
abstracted as explicit parameters, and the mutex plumbing is dropped:
every modelled operation acts on explicit cache state.
-/

set_option linter.unusedVariables false

namespace Blockstore

def DefaultPartDataSize : Int := 64 * 1024

def NoPartIdx : Int := -1

/-- Arbitrary JSON-ish metadata values (the Go `any`). -/
inductive JVal where
  | str (s : String)
  | num (n : Int)
deriving DecidableEq

/-- `FileMeta = map[string]any`, modelled as a function from keys to
`Option (Option JVal)`: the outer `Option` is key presence, the inner one
distinguishes a stored Go `nil` (`none`) from a real value. -/
abbrev MetaMap : Type := String → Option (Option JVal)

def emptyMeta : MetaMap := fun _ => none

structure FileOptsType where
  MaxSize : Int
  Circular : Bool
  IJson : Bool
deriving DecidableEq

structure BlockFile where
  BlockId : String
  Name : String
  Opts : FileOptsType
  CreatedTs : Int
  Size : Int
  ModTs : Int
  Meta : MetaMap

/-- `BlockFile.partIdxAtOffset` (src 271-278): the part index of a byte
offset, folded modulo `maxSize / PartSize` for circular files. -/
def partIdxAtOffset (P : Int) (f : BlockFile) (offset : Int) : Int :=
  let partIdx := offset.tdiv P
  if f.Opts.Circular then
    let maxPart := f.Opts.MaxSize.tdiv P
    partIdx.tmod maxPart
  else
    partIdx

/-- `BlockFile.getLastIncompletePartNum` (src 264-269). -/
def getLastIncompletePartNum (P : Int) (f : BlockFile) : Int :=
  if f.Size.tmod P = 0 then NoPartIdx
  else partIdxAtOffset P f f.Size

/-- The circular fold that `partIdxAtOffset` applies to an (unfolded) part
index; used to state which part indices an operation touches. -/
def foldPartIdx (P : Int) (f : BlockFile) (i : Int) : Int :=
  if f.Opts.Circular then i.tmod (f.Opts.MaxSize.tdiv P) else i

/-- The option validation and circular rounding at the top of `MakeFile`
(src 83-96): reject a negative max size, a circular file without a positive
max size, and circular+ijson; round a circular max size up to the next
multiple of `PartSize`. -/
def makeFileCheckOpts (P : Int) (opts : FileOptsType) : Except String FileOptsType :=
  if opts.MaxSize < 0 then Except.error ("max size must be non-negative")
  else if opts.Circular ∧ opts.MaxSize ≤ 0 then Except.error ("circular file must have a max size")
  else if opts.Circular ∧ opts.IJson then Except.error ("circular file cannot be ijson")
  else if opts.Circular ∧ opts.MaxSize.tmod P ≠ 0 then
    Except.ok { opts with MaxSize := (opts.MaxSize.tdiv P + 1) * P }
  else Except.ok opts

/-- The file descriptor `MakeFile` constructs (src 117-125) and hands to
`dbInsertFile`: size 0, `createdTs = modTs = now`, the (adjusted) options. -/
def makeBlockFile (now : Int) (blockId name : String) (meta : MetaMap)
    (opts : FileOptsType) : BlockFile :=
  { BlockId := blockId, Name := name, Size := 0, CreatedTs := now, ModTs := now,
    Opts := opts, Meta := meta }

/-- The descriptor handed to the backing store's insert, or the validation
error: `makeFileCheckOpts` followed by `makeBlockFile`. -/
def makeFileDescriptor (P now : Int) (blockId name : String) (meta : MetaMap)
    (opts : FileOptsType) : Except String BlockFile :=
  match makeFileCheckOpts P opts with
  | Except.error e => Except.error e
  | Except.ok opts2 => Except.ok (makeBlockFile now blockId name meta opts2)

/-- `WriteIntention` (cache src 208-212): `Parts` is a `map[int]int`,
rendered as an association list. -/
structure WriteIntention where
  Parts : List (Int × Int)
  Append : Bool
  Replace : Bool
deriving DecidableEq

/-- `DataCacheEntry` (cache src 195-200): a cached data part with its two
flags; `Data` is a `[]byte` whose capacity is always `partDataSize`. -/
structure DataCacheEntry where
  Dirty : Bool
  Flushing : Bool
  PartIdx : Int
  Data : List Nat

/-- `FileCacheEntry` (cache src 202-206): the cached file image with its
two flags. -/
structure FileCacheEntry where
  Dirty : Bool
  Flushing : Bool
  File : BlockFile

/-- `CacheEntry` (cache src 221-229): the per-(blockId, name) cache record;
`WriteIntentions` is a `map[int]WriteIntention` keyed by intention id,
`DataEntries` a `[]*DataCacheEntry` with `nil` slots. -/
structure CacheEntry where
  BlockId : String
  Name : String
  PinCount : Int
  Deleted : Bool
  WriteIntentions : List (Int × WriteIntention)
  FileEntry : Option FileCacheEntry
  DataEntries : List (Option DataCacheEntry)

/-- `cacheKey` (cache src 182-185). -/
structure cacheKey where
  BlockId : String
  Name : String
deriving DecidableEq

/-- `BlockStore.Cache`, as an association list keyed by `cacheKey`. -/
abbrev Cache : Type := List (cacheKey × CacheEntry)

def lookupCache : Cache → cacheKey → Option CacheEntry
  | [], _ => none
  | kv :: rest, k => if kv.1 = k then some kv.2 else lookupCache rest k

def eraseCache : Cache → cacheKey → Cache
  | [], _ => []
  | kv :: rest, k => if kv.1 = k then eraseCache rest k else kv :: eraseCache rest k

def setCacheEntry : Cache → cacheKey → CacheEntry → Cache
  | [], _, _ => []
  | kv :: rest, k, e =>
    if kv.1 = k then (k, e) :: setCacheEntry rest k e else kv :: setCacheEntry rest k e

/-- `BlockStore.MakeFile` (src 82-127).  The backing store's insert is
abstracted as `dbIns` (applied to the constructed descriptor), and the
result is paired with the cache state after the call.  `withLock` (cache
src 356-367) hands the entry found for the key — or `nil`, since
`shouldCreate` is `false` here — to the closure, whose body is src lines
98-112. -/
def MakeFile (P now : Int) (dbIns : BlockFile → Except String Unit) (c : Cache)
    (blockId name : String) (meta : MetaMap) (opts : FileOptsType) :
    Except String Unit × Cache :=
  match makeFileCheckOpts P opts with
  | Except.error e => (Except.error e, c)
  | Except.ok opts2 =>
    match lookupCache c ⟨blockId, name⟩ with
    | none => (dbIns (makeBlockFile now blockId name meta opts2), c)
    | some entry =>
      if entry.Deleted = false then (Except.error ("file exists"), c)
      else if entry.PinCount = 0 ∧ entry.WriteIntentions = [] then
        (dbIns (makeBlockFile now blockId name meta opts2), eraseCache c ⟨blockId, name⟩)
      else (Except.error ("file is deleted but has active requests"), c)

/-- The cache after removing the key's entry when (and only when) it is a
deleted entry with no pins and no write intentions; used to describe
`MakeFile`'s cache effect. -/
def eraseDrainedTombstone (c : Cache) (k : cacheKey) : Cache :=
  match lookupCache c k with
  | some entry =>
    if entry.Deleted = true ∧ entry.PinCount = 0 ∧ entry.WriteIntentions = [] then
      eraseCache c k
    else c
  | none => c

/-- `BlockStore.DeleteFile` (src 129-146), with the backing store's delete
result abstracted as `dbDel`. -/
def DeleteFile (dbDel : Except String Unit) (c : Cache) (blockId name : String) :
    Except String Unit × Cache :=
  match dbDel with
  | Except.error e => (Except.error ("error deleting file: " ++ e), c)
  | Except.ok _ =>
    let c2 :=
      match lookupCache c ⟨blockId, name⟩ with
      | none => c
      | some entry =>
        if entry.PinCount > 0 ∨ entry.WriteIntentions ≠ [] then
          setCacheEntry c ⟨blockId, name⟩ { entry with Deleted := true }
        else eraseCache c ⟨blockId, name⟩
    (Except.ok (), c2)

/-- `BlockStore.DeleteBlock` (src 148-157): list the namespace's file names,
then delete each file, ignoring the per-file results.  `dbList` is the
listing result and `dbDel` gives each per-file `dbDeleteFile` result. -/
def DeleteBlock (dbList : Except String (List String)) (dbDel : String → Except String Unit)
    (c : Cache) (blockId : String) : Except String Unit × Cache :=
  match dbList with
  | Except.error e => (Except.error ("error getting block files: " ++ e), c)
  | Except.ok fileNames =>
    (Except.ok (), fileNames.foldl (fun acc name => (DeleteFile (dbDel name) acc blockId name).2) c)

/-- Whether an entry holds any dirty buffer: the scan condition of
`FlushCache`'s loop body (src 538-547). -/
def entryIsDirty (entry : CacheEntry) : Bool :=
  (match entry.FileEntry with
   | some fe => fe.Dirty
   | none => false)
  || entry.DataEntries.any (fun de =>
      match de with
      | some d => d.Dirty
      | none => false)

/-- The dirty-key scan of `FlushCache` (src 535-549). -/
def collectDirtyKeys (c : Cache) : List cacheKey :=
  c.foldl (fun acc kv => if entryIsDirty kv.2 then acc ++ [kv.1] else acc) []

/-- `BlockStore.FlushCache` (src 534-551): collects the dirty cache keys and
then returns `nil`; no flush is issued and the cache is left untouched. -/
def FlushCache (c : Cache) : Except String Unit × Cache :=
  let dirtyCacheKeys := collectDirtyKeys c
  (Except.ok (), c)

/-- `makeDataCacheEntry` (cache src 261-268): fresh flags and an empty
`Data` (`make([]byte, 0, partDataSize)` — length 0, zeroed capacity). -/
def makeDataCacheEntry (partIdx : Int) : DataCacheEntry :=
  { Dirty := false, Flushing := false, PartIdx := partIdx, Data := [] }

/-- The slot-growing half of `CacheEntry.ensurePart` (cache src 284-287):
append `nil` slots until index `partIdx` exists. -/
def ensurePartList (des : List (Option DataCacheEntry)) (partIdx : Int) :
    List (Option DataCacheEntry) :=
  if partIdx < 0 then des
  else des ++ List.replicate (partIdx.toNat + 1 - des.length) none

/-- Reading `DataEntries[partIdx]`, `nil` when the slot does not exist
(indices in use are nonnegative). -/
def getDataEntry (des : List (Option DataCacheEntry)) (partIdx : Int) :
    Option DataCacheEntry :=
  if 0 ≤ partIdx then des.getD partIdx.toNat none else none

/-- Writing `DataEntries[partIdx]` (indices in use are nonnegative and in
range after `ensurePartList`). -/
def setDataEntry (des : List (Option DataCacheEntry)) (partIdx : Int)
    (d : Option DataCacheEntry) : List (Option DataCacheEntry) :=
  des.set partIdx.toNat d

/-- `DataCacheEntry.clonePart` (cache src 294-301): a fresh entry for the
same part, `Dirty` carried over, `Flushing` clear.  The Go `copy` targets
the fresh length-0 `Data` slice and therefore copies nothing, so the
clone's payload is empty (its zeroed capacity reads as zeros). -/
def DataCacheEntry.clonePart (dce : DataCacheEntry) : DataCacheEntry :=
  { Dirty := dce.Dirty, Flushing := false, PartIdx := dce.PartIdx, Data := [] }

/-- `DataCacheEntry.writeToPart` (cache src 303-318): clone when
`Flushing`, clamp the write to the part's remaining room, extend `Data` to
`offset + toWrite` (the reslice exposes the zeroed capacity), copy the
bytes in at `offset`, set `Dirty`; returns the written count and the
(possibly cloned) entry. -/
def DataCacheEntry.writeToPart (P : Int) (dce0 : DataCacheEntry) (offset : Int)
    (data : List Nat) : Int × DataCacheEntry :=
  let dce := if dce0.Flushing then dce0.clonePart else dce0
  let leftInPart := P - offset
  let toWrite := if (data.length : Int) > leftInPart then leftInPart else (data.length : Int)
  let data1 :=
    if (dce.Data.length : Int) < offset + toWrite then
      dce.Data ++ List.replicate ((offset + toWrite).toNat - dce.Data.length) 0
    else dce.Data
  let newData :=
    data1.take offset.toNat ++ data.take toWrite.toNat ++ data1.drop (offset.toNat + toWrite.toNat)
  (toWrite, { dce with Data := newData, Dirty := true })

/-- The loop of `CacheEntry.writeAt` (cache src 324-336), with fuel equal
to the byte count: each iteration writes `toWrite ≥ 1` bytes into the part
at the current offset (the inline part-index computation at cache src
325-329 is exactly `partIdxAtOffset`), so the fuel never runs out on the
loop's own terms. -/
def writeAtLoop (P : Int) (file : BlockFile) :
    Nat → Int → List Nat → List (Option DataCacheEntry) → List (Option DataCacheEntry)
  | 0, _, _, des => des
  | fuel + 1, offset, data, des =>
    if data.length = 0 then des
    else
      let partIdx := partIdxAtOffset P file offset
      let partOffset := offset.tmod P
      let des1 := ensurePartList des partIdx
      let partData := match getDataEntry des1 partIdx with
        | some d => d
        | none => makeDataCacheEntry partIdx
      let res := DataCacheEntry.writeToPart P partData partOffset data
      let des2 := setDataEntry des1 partIdx (some res.2)
      writeAtLoop P file fuel (offset + res.1) (data.drop res.1.toNat) des2

/-- `CacheEntry.writeAt` (cache src 320-337): on replace drop every data
part, then split the write across parts in order.  `ensurePart(partIdx,
true)` is rendered as growing the slot list and creating a fresh entry
when the slot is `nil`.  The loop dereferences `FileEntry` for the
circular options; every caller holds one (`withLockExists`), so the
`none` case only performs the replace-clear. -/
def CacheEntry.writeAt (P : Int) (entry : CacheEntry) (offset : Int) (data : List Nat)
    (replace : Bool) : CacheEntry :=
  let des0 := if replace then [] else entry.DataEntries
  match entry.FileEntry with
  | none => { entry with DataEntries := des0 }
  | some fe => { entry with DataEntries := writeAtLoop P fe.File data.length offset data des0 }

/-- `CacheEntry.modifyFileData` (cache src 462-476): replace the
`FileEntry` with a fresh-flag copy when it is `Flushing`, mark it `Dirty`,
and apply the mutation to its file.  Callers hold a `FileEntry`; the
`none` case is the Go nil-dereference, unreachable here. -/
def CacheEntry.modifyFileData (entry : CacheEntry) (fn : BlockFile → BlockFile) : CacheEntry :=
  match entry.FileEntry with
  | none => entry
  | some fe =>
    let fe2 := if fe.Flushing then { Dirty := false, Flushing := false, File := fe.File } else fe
    { entry with FileEntry := some { fe2 with Dirty := true, File := fn fe2.File } }

/-- `CacheEntry.writeAtToCache` (src 328-337): perform the raw write, then
update `Size` (extend past end, or always on replace) and `ModTs`. -/
def writeAtToCache (P now : Int) (entry : CacheEntry) (offset : Int) (data : List Nat)
    (replace : Bool) : CacheEntry :=
  let endWrite := offset + (data.length : Int)
  let entry2 := CacheEntry.writeAt P entry offset data replace
  CacheEntry.modifyFileData entry2 (fun file =>
    { file with
      Size := if endWrite > file.Size ∨ replace = true then endWrite else file.Size
      ModTs := now })

/-- Insert-or-assign on the association list standing in for Go's
`partMap` map. -/
def assocSet : List (Int × Int) → Int → Int → List (Int × Int)
  | [], k, v => [(k, v)]
  | kv :: rest, k, v => if kv.1 = k then (k, v) :: rest else kv :: assocSet rest k v

/-- `BlockFile.computePartMap` (src 381-400): how many bytes a write of
`size` bytes at `startOffset` places into each part; the loop over
part-aligned offsets is rendered by its iteration count. -/
def computePartMap (P : Int) (file : BlockFile) (startOffset size : Int) : List (Int × Int) :=
  let endOffset := startOffset + size
  let startBlockOffset := startOffset - startOffset.tmod P
  let n := ((endOffset - startBlockOffset + P - 1).tdiv P).toNat
  (List.range n).foldl
    (fun partMap (k : Nat) =>
      let testOffset := startBlockOffset + (k : Int) * P
      let partIdx := partIdxAtOffset P file testOffset
      let partStartOffset := testOffset
      let partEndOffset := testOffset + P
      let partWriteStartOffset : Int :=
        if startOffset > partStartOffset ∧ startOffset < partEndOffset then
          startOffset - partStartOffset
        else 0
      let partWriteEndOffset : Int :=
        if endOffset > partStartOffset ∧ endOffset < partEndOffset then
          endOffset - partStartOffset
        else P
      assocSet partMap partIdx (partWriteEndOffset - partWriteStartOffset))
    []

/-- `incompletePartsFromMap` (src 370-378): the parts whose planned byte
count is less than a full part. -/
def incompletePartsFromMap (P : Int) (partMap : List (Int × Int)) : List Int :=
  (partMap.filter (fun kv => kv.2 != P)).map (fun kv => kv.1)

/-- `maxOfIntArr` (src 296-307). -/
def maxOfIntArr : List Int → Int
  | [] => 0
  | a :: rest => rest.foldl (fun mx v => if v > mx then v else mx) a

/-- `loadDataParts` (src 309-326): fetch the listed parts from the backing
store `db`, grow the slot list to `max(parts)` (`ensurePart(maxPart,
false)`), and install each fetched part only where the cache slot is still
empty ("someone beat us to it" keeps the cached one). -/
def loadDataParts (db : Int → Option DataCacheEntry) (entry : CacheEntry)
    (parts : List Int) : CacheEntry :=
  let maxPart := maxOfIntArr parts
  let des0 := ensurePartList entry.DataEntries maxPart
  let des1 := parts.foldl
    (fun des partIdx =>
      match db partIdx with
      | none => des
      | some partData =>
        match getDataEntry des partIdx with
        | some _ => des
        | none => setDataEntry des partIdx (some partData))
    des0
  { entry with DataEntries := des1 }

/-- `BlockStore.WriteAt` (src 417-454) on a loaded, live entry
(`loadFileInfo` succeeded, so `FileEntry` is installed and the entry is
not deleted — a deleted entry fails inside `loadFileInfo` before any of
this runs; the installed file is what `loadFileInfo` returned): offset
validation, the circular-window adjustment, the part map of the write, the
load of its incomplete parts, and the cache write. -/
def WriteAt (P now : Int) (db : Int → Option DataCacheEntry) (entry : CacheEntry)
    (offset0 : Int) (data : List Nat) : Except String CacheEntry :=
  match entry.FileEntry with
  | none => Except.error ("error loading file info: file not found")
  | some fe =>
    let file := fe.File
    if offset0 < 0 then Except.error ("offset must be non-negative")
    else if offset0 > file.Size then Except.error ("offset is past the end of the file")
    else if file.Opts.Circular ∧
        offset0 + (data.length : Int) < file.Size - file.Opts.MaxSize then
      Except.ok entry
    else
      let startCirFileOffset := file.Size - file.Opts.MaxSize
      let adjust := file.Opts.Circular ∧ offset0 < startCirFileOffset
      let offset := if adjust then startCirFileOffset else offset0
      let data2 := if adjust then data.drop (startCirFileOffset - offset0).toNat else data
      let partMap := computePartMap P file offset (data2.length : Int)
      let entry2 := loadDataParts db entry (incompletePartsFromMap P partMap)
      Except.ok (writeAtToCache P now entry2 offset data2 false)

/-- `BlockStore.WriteFile` (src 402-415) on a loaded, live entry: the
`withLockExists` body replaces the whole contents, writing `data` at
offset 0. -/
def WriteFile (P now : Int) (entry : CacheEntry) (data : List Nat) : CacheEntry :=
  writeAtToCache P now entry 0 data true

/-- The part indices `ReadAt` fetches from the backing store (src 473-478):
`for i := offset; i < endOffsetOfLastPart; i += PartSize`, collecting
`partIdxAtOffset i`; the loop is rendered by its iteration count. -/
def partsNeededList (P : Int) (file : BlockFile) (offset size : Int) : List Int :=
  let lastPartOffset := (offset + size).tmod P
  let endOffsetOfLastPart := offset + size - lastPartOffset + P
  let n := ((endOffsetOfLastPart - offset + P - 1).tdiv P).toNat
  (List.range n).map (fun (k : Nat) => partIdxAtOffset P file (offset + (k : Int) * P))

/-- A part payload as `ReadAt` views it: `Data[0:PartSize]`, zero-filled
beyond the stored bytes. -/
def padTo (P : Int) (d : List Nat) : List Nat :=
  (d.take P.toNat) ++ List.replicate (P.toNat - d.length) 0

/-- The assembly loop at the bottom of `ReadAt` (src 505-519), with fuel
equal to the (clamped) byte count; every iteration consumes at least one
byte, so the fuel never runs out on the loop's own terms.  A missing part
reads as zeros; a present one as `Data[0:partDataSize]` (`padTo`). -/
def readAtLoop (P : Int) (file : BlockFile) (dataEntries : Int → Option DataCacheEntry) :
    Nat → Int → Int → List Nat
  | 0, _, _ => []
  | fuel + 1, amtLeftToRead, curReadOffset =>
    if amtLeftToRead ≤ 0 then []
    else
      let partIdx := partIdxAtOffset P file curReadOffset
      let partData := match dataEntries partIdx with
        | none => List.replicate P.toNat 0
        | some d => padTo P d.Data
      let partOffset := curReadOffset.tmod P
      let amtToRead := min (P - partOffset) amtLeftToRead
      ((partData.drop partOffset.toNat).take amtToRead.toNat)
        ++ readAtLoop P file dataEntries fuel (amtLeftToRead - amtToRead) (curReadOffset + amtToRead)

/-- `BlockStore.ReadAt` (src 458-521) on a loaded, live entry (`Stat`
returns the copy of `FileEntry.File`; without a `FileEntry` the
`withLockExists` wash at src 484-496 fails; on a deleted entry `Stat`
hands back a nil file that src 465 would dereference, so only live entries
are modelled): circular offset adjustment, needed-part computation, the
backing-store fetch washed through the cache (cached slots win), the size
clamp against `FileEntry.File.Size`, and assembly.  Returns the (possibly
adjusted) offset together with the bytes read. -/
def ReadAt (P : Int) (entry : CacheEntry) (db : Int → Option DataCacheEntry)
    (offset0 size0 : Int) : Except String (Int × List Nat) :=
  match entry.FileEntry with
  | none => Except.error ("error reconciling cache entries: file not found")
  | some fe =>
    let file := fe.File
    let offset :=
      if file.Opts.Circular ∧ size0 > file.Opts.MaxSize then offset0 + (size0 - file.Opts.MaxSize)
      else offset0
    let partsNeeded := partsNeededList P file offset size0
    let dataEntries : Int → Option DataCacheEntry := fun pi =>
      if partsNeeded.contains pi then
        match getDataEntry entry.DataEntries pi with
        | some d => some d
        | none => db pi
      else none
    let size := if offset + size0 > file.Size then file.Size - offset else size0
    Except.ok (offset, readAtLoop P file dataEntries size.toNat size offset)

/-- `BlockStore.ReadFile` (src 523-532) on a live entry: `Stat` (the
cached file when the entry is loaded), the nil-file check, then `ReadAt`
at offset 0 for the file's whole size. -/
def ReadFile (P : Int) (entry : CacheEntry) (db : Int → Option DataCacheEntry) :
    Except String (Int × List Nat) :=
  match entry.FileEntry with
  | none => Except.error ("file not found")
  | some fe => ReadAt P entry db 0 fe.File.Size

/-- First-match lookup in a key/value list (a Go map holds each key once). -/
def metaLookup : List (String × Option JVal) → String → Option (Option JVal)
  | [], _ => none
  | kv :: rest, k => if kv.1 = k then some kv.2 else metaLookup rest k

/-- A Go metadata map value as a `MetaMap`. -/
def metaToFun (meta : List (String × Option JVal)) : MetaMap :=
  fun k => metaLookup meta k

/-- One step of the merge loop in `WriteMeta` (src 210-216): a `nil` value
deletes the top-level key, any other value assigns it. -/
def mergeStep (acc : MetaMap) (kv : String × Option JVal) : MetaMap :=
  match kv.2 with
  | none => fun k => if k = kv.1 then none else acc k
  | some v => fun k => if k = kv.1 then some (some v) else acc k

/-- `BlockStore.WriteMeta` (src 200-223) restricted to its effect on the
file image: merge into, or replace, the meta mapping.  The given map is a
list of key/value pairs (Go map iteration); a `none` value is Go's `nil`. -/
def WriteMeta (file : BlockFile) (meta : List (String × Option JVal)) (merge : Bool) :
    BlockFile :=
  { file with Meta := if merge then meta.foldl mergeStep file.Meta else metaToFun meta }

/-! Concrete inputs used by counterexamples, scenario claims and witnesses. -/

/-- A plain (non-circular) file image of the given size. -/
def plainFile (size : Int) : BlockFile :=
  { BlockId := "b", Name := "f", Opts := { MaxSize := 0, Circular := false, IJson := false },
    CreatedTs := 0, Size := size, ModTs := 0, Meta := emptyMeta }

/-- No parts present in the backing store. -/
def noParts : Int → Option DataCacheEntry := fun _ => none

def scenOpts : FileOptsType := { MaxSize := 32, Circular := true, IJson := false }

/-- The circular test file right after `MakeFile` and `loadFileInfo`
(`maxSize = 2 * PartSize` with `PartSize = 16`, size still 0). -/
def scenFile : BlockFile := makeBlockFile 5 ("b") ("f") emptyMeta scenOpts

/-- The `FileEntry` that `loadFileInfo` installs for the scenario file
(fresh flags, the backing-store descriptor's copy; src 254-258). -/
def scenFe0 : FileCacheEntry := { Dirty := false, Flushing := false, File := scenFile }

/-- The scenario's cache entry right after `loadFileInfo`. -/
def scenEntry0 : CacheEntry :=
  { BlockId := "b", Name := "f", PinCount := 0, Deleted := false, WriteIntentions := [],
    FileEntry := some scenFe0, DataEntries := [] }

/-- The scenario's cache entry after `WriteFile` of forty 'A' (65) bytes. -/
def scenEntry1 : CacheEntry := WriteFile 16 6 scenEntry0 (List.replicate 40 65)

/-- The `FileEntry` held by `scenEntry1`: dirty, size 40, mod time 6. -/
def scenFe1 : FileCacheEntry :=
  { Dirty := true, Flushing := false, File := { scenFile with Size := 40, ModTs := 6 } }

/-- A cache entry whose file buffer is dirty. -/
def dirtyEntry : CacheEntry :=
  { BlockId := "b", Name := "f", PinCount := 0, Deleted := false, WriteIntentions := [],
    FileEntry := some { Dirty := true, Flushing := false, File := plainFile 0 },
    DataEntries := [] }

def dirtyCache : Cache := [(⟨"b", "f"⟩, dirtyEntry)]

/-- A deleted cache entry with no pins and no write intentions. -/
def tombEntry : CacheEntry :=
  { BlockId := "b", Name := "f", PinCount := 0, Deleted := true, WriteIntentions := [],
    FileEntry := none, DataEntries := [] }

def tombCache : Cache := [(⟨"b", "f"⟩, tombEntry)]

def metaGiven1 : List (String × Option JVal) := [("k2", some (JVal.str ("v"))), ("k3", some (JVal.num 3))]

def metaGiven2 : List (String × Option JVal) := [("k1", some (JVal.num 1)), ("k2", none)]

/-- A circular file image (`maxSize = 32`) of the given size. -/
def cirFile (size : Int) : BlockFile :=
  { BlockId := "b", Name := "f", Opts := { MaxSize := 32, Circular := true, IJson := false },
    CreatedTs := 0, Size := size, ModTs := 0, Meta := emptyMeta }

/-- The loaded `FileEntry` of the size-100 circular file. -/
def cirFe : FileCacheEntry := { Dirty := false, Flushing := false, File := cirFile 100 }

/-- A loaded circular file entry of size 100 with no cached parts. -/
def cirEntry : CacheEntry :=
  { BlockId := "b", Name := "f", PinCount := 0, Deleted := false, WriteIntentions := [],
    FileEntry := some cirFe, DataEntries := [] }

/-- The file image after `WriteMeta(merge=false, givn1)` then
`WriteMeta(merge=true, given2)`. -/
def metaScenFile : BlockFile := WriteMeta (WriteMeta (plainFile 0) metaGiven1 false) metaGiven2 true

/-!
Theorems.  Each claim Cn of the specification review has exactly one
theorem below (plus a witness for theorems with hypotheses, and a
counterexample where the claim needed correction).
-/

/-- Splitting an integer as `r + P * q` with `0 ≤ r < P` identifies its
Euclidean quotient. -/
theorem ediv_of_decomp {P q r : Int} (hP : 0 < P) (h0 : 0 ≤ r) (h1 : r < P) :
    (r + P * q) / P = q := by
  rw [Int.add_mul_ediv_left r q (ne_of_gt hP), Int.ediv_eq_zero_of_lt h0 h1, zero_add]

/-- Decrementing an integer that is not on a multiple of `P` does not change
its Euclidean quotient by `P`. -/
theorem ediv_pred_of_emod_ne_zero {a P : Int} (hP : 0 < P) (ha : 0 ≤ a) (h : a % P ≠ 0) :
    (a - 1) / P = a / P := by
  have hr0 : 0 ≤ a % P := Int.emod_nonneg a (ne_of_gt hP)
  have hrP : a % P < P := Int.emod_lt_of_pos a hP
  have hd : P * (a / P) + a % P = a := Int.ediv_add_emod a P
  have hrw : a - 1 = (a % P - 1) + P * (a / P) := by omega
  rw [hrw, ediv_of_decomp hP (by omega) (by omega)]

/-- Claim C9: the last-incomplete-part computation returns `NoPartIdx` when
`size` is a multiple of `PartSize`, and otherwise the (circularly folded)
index of the part containing byte `size - 1`. -/
theorem getLastIncompletePartNum_spec (P : Int) (f : BlockFile) (hP : 0 < P)
    (hs : 0 ≤ f.Size) :
    (f.Size.tmod P = 0 → getLastIncompletePartNum P f = NoPartIdx) ∧
    (f.Size.tmod P ≠ 0 →
      getLastIncompletePartNum P f = partIdxAtOffset P f (f.Size - 1)) := by
  constructor
  · intro h
    simp [getLastIncompletePartNum, h]
  · intro h
    have hPle : (0:Int) ≤ P := le_of_lt hP
    have hem : f.Size.tmod P = f.Size % P := Int.tmod_eq_emod hs hPle
    have hne : f.Size % P ≠ 0 := by rw [← hem]; exact h
    have hs1 : (1:Int) ≤ f.Size := by
      rcases lt_or_eq_of_le hs with h1 | h1
      · omega
      · exact absurd (by rw [← h1]; simp) hne
    have hdiv : (f.Size - 1).tdiv P = f.Size.tdiv P := by
      rw [Int.tdiv_eq_ediv (by omega) hPle, Int.tdiv_eq_ediv hs hPle]
      exact ediv_pred_of_emod_ne_zero hP hs hne
    simp only [getLastIncompletePartNum, if_neg h, partIdxAtOffset, hdiv]

/-- Witness for the claim C9 theorem at `P = 16` and a file of size 20. -/
theorem getLastIncompletePartNum_witness :
    ((plainFile 20).Size.tmod 16 ≠ 0) ∧
    getLastIncompletePartNum 16 (plainFile 20) =
      partIdxAtOffset 16 (plainFile 20) ((plainFile 20).Size - 1) :=
  ⟨by decide, (getLastIncompletePartNum_spec 16 (plainFile 20) (by decide) (by decide)).2 (by decide)⟩

/-- Claim C1 (code bug in the source): `FlushCache` computes the list of
dirty cache keys and then returns `nil` without flushing anything.  On a
cache holding a dirty file buffer it succeeds, finds the dirty key, and
leaves the cache — dirty flag included — exactly as it was, so after it
returns not every buffer has `dirty == false`. -/
theorem flushCache_scans_but_does_not_flush :
    FlushCache dirtyCache = (Except.ok (), dirtyCache) ∧
    collectDirtyKeys dirtyCache = [⟨"b", "f"⟩] ∧
    ((FlushCache dirtyCache).2.all fun kv => !entryIsDirty kv.2) = false :=
  ⟨rfl, rfl, rfl⟩

/-- Claim C5: on a loaded entry, `WriteAt` rejects a negative offset, and
rejects an offset strictly past the file's current size, each with a
validation error. -/
theorem writeAt_offset_validation (P now : Int) (db : Int → Option DataCacheEntry)
    (entry : CacheEntry) (fe : FileCacheEntry) (offset : Int) (data : List Nat)
    (hfe : entry.FileEntry = some fe) :
    (offset < 0 →
      WriteAt P now db entry offset data = Except.error ("offset must be non-negative")) ∧
    (0 ≤ offset → fe.File.Size < offset →
      WriteAt P now db entry offset data = Except.error ("offset is past the end of the file")) := by
  constructor
  · intro h
    simp [WriteAt, hfe, h]
  · intro h0 h1
    have hn : ¬ offset < 0 := not_lt.2 h0
    simp only [WriteAt, hfe]
    rw [if_neg hn, if_pos h1]

/-- Witness for the claim C5 theorem: both rejection branches at concrete
inputs. -/
theorem writeAt_offset_validation_witness :
    WriteAt 16 0 noParts scenEntry0 (-1) [] = Except.error ("offset must be non-negative") ∧
    WriteAt 16 0 noParts scenEntry0 7 [] = Except.error ("offset is past the end of the file") :=
  ⟨(writeAt_offset_validation 16 0 noParts scenEntry0 scenFe0 (-1) [] (by rfl)).1 (by decide),
   (writeAt_offset_validation 16 0 noParts scenEntry0 scenFe0 7 [] (by rfl)).2
     (by decide) (by decide)⟩

/-- Claim C10: `DeleteBlock` returns success whenever listing the block's
file names succeeds, even though a per-file `DeleteFile` call does fail
when its backing-store delete fails — those per-file errors are
discarded. -/
theorem deleteBlock_discards_per_file_errors
    (dbList : Except String (List String)) (dbDel : String → Except String Unit)
    (c : Cache) (blockId : String) (fileNames : List String)
    (h : dbList = Except.ok fileNames) :
    (DeleteBlock dbList dbDel c blockId).1 = Except.ok () ∧
    (∀ e c2 bid nm, (DeleteFile (Except.error e) c2 bid nm).1 =
      Except.error ("error deleting file: " ++ e)) := by
  subst h
  exact ⟨rfl, fun e c2 bid nm => rfl⟩

/-- Witness for the claim C10 theorem: a block with one file whose delete
fails; `DeleteBlock` still returns success. -/
theorem deleteBlock_discards_witness :
    (DeleteBlock (Except.ok ["f1"]) (fun _ => Except.error ("boom")) [] ("b")).1 = Except.ok () :=
  (deleteBlock_discards_per_file_errors (Except.ok ["f1"]) (fun _ => Except.error ("boom"))
    [] ("b") ["f1"] rfl).1

/-- Claim C2: for every loaded circular file, `ReadAt` with
`size > maxSize` advances the offset by `size - maxSize` before reading and
returns the adjusted offset with the result; and the concrete scenario: on
the circular file with `maxSize = 2 * PartSize` (`PartSize = 16`) after
`WriteFile` of forty 'A' bytes, `ReadFile` returns offset 8 and exactly 32
bytes, all 'A'. -/
theorem readAt_circular_offset_adjust (P : Int) (entry : CacheEntry) (fe : FileCacheEntry)
    (db : Int → Option DataCacheEntry) (offset size : Int)
    (hfe : entry.FileEntry = some fe)
    (hC : fe.File.Opts.Circular = true) (hgt : size > fe.File.Opts.MaxSize) :
    (ReadAt P entry db offset size).map Prod.fst =
      Except.ok (offset + (size - fe.File.Opts.MaxSize)) ∧
    ReadFile 16 scenEntry1 noParts = Except.ok (8, List.replicate 32 65) := by
  refine ⟨?_, by rfl⟩
  simp [ReadAt, hfe, hC, hgt, Except.map]

/-- Witness for the claim C2 theorem: the scenario read itself, whose
returned offset is `0 + (40 - 32) = 8`. -/
theorem readAt_circular_offset_adjust_witness :
    (ReadAt 16 scenEntry1 noParts 0 40).map Prod.fst =
      Except.ok (0 + (40 - scenFe1.File.Opts.MaxSize)) :=
  (readAt_circular_offset_adjust 16 scenEntry1 scenFe1 noParts 0 40 (by rfl) (by rfl)
    (by decide)).1

/-- Claim C3 counterexample: a non-circular `maxSize` is not rounded up.
`maxSize = 10` passes validation and reaches the descriptor unchanged, yet
10 is not a multiple of `PartSize = 16`. -/
theorem makeFile_rounding_noncircular_cex :
    makeFileDescriptor 16 0 ("b") ("f") emptyMeta
        { MaxSize := 10, Circular := false, IJson := false } =
      Except.ok (makeBlockFile 0 ("b") ("f") emptyMeta
        { MaxSize := 10, Circular := false, IJson := false }) ∧
    ¬ ((16:Int) ∣ 10) :=
  ⟨rfl, by decide⟩

/-- Claim C3 (amended): `MakeFile` rejects every opts with `maxSize < 0`,
every circular opts with `maxSize ≤ 0`, and circular+ijson; for every call
that passes validation the descriptor handed to the insert carries the
checked options, which are unchanged for non-circular files, while for
circular files `maxSize` is rounded up to the least multiple of `PartSize`
at least `maxSize` (unchanged when already a multiple). -/
theorem makeFile_validation_and_rounding (P now : Int) (blockId name : String)
    (meta : MetaMap) (opts : FileOptsType) (hP : 0 < P) :
    (opts.MaxSize < 0 → ∃ e, makeFileCheckOpts P opts = Except.error e) ∧
    (opts.Circular = true → opts.MaxSize ≤ 0 →
      ∃ e, makeFileCheckOpts P opts = Except.error e) ∧
    (opts.Circular = true → opts.IJson = true →
      ∃ e, makeFileCheckOpts P opts = Except.error e) ∧
    (∀ opts2, makeFileCheckOpts P opts = Except.ok opts2 →
      makeFileDescriptor P now blockId name meta opts =
        Except.ok (makeBlockFile now blockId name meta opts2) ∧
      opts2.Circular = opts.Circular ∧ opts2.IJson = opts.IJson ∧
      (opts.Circular = false → opts2 = opts) ∧
      (opts.Circular = true →
        P ∣ opts2.MaxSize ∧ opts.MaxSize ≤ opts2.MaxSize ∧
          opts2.MaxSize < opts.MaxSize + P)) := by
  refine ⟨?_, ?_, ?_, ?_⟩
  · intro h
    exact ⟨"max size must be non-negative", by simp [makeFileCheckOpts, h]⟩
  · intro hc h
    by_cases h0 : opts.MaxSize < 0
    · exact ⟨"max size must be non-negative", by simp [makeFileCheckOpts, h0]⟩
    · exact ⟨"circular file must have a max size", by simp [makeFileCheckOpts, h0, hc, h]⟩
  · intro hc hj
    by_cases h0 : opts.MaxSize < 0
    · exact ⟨"max size must be non-negative", by simp [makeFileCheckOpts, h0]⟩
    by_cases h1 : opts.MaxSize ≤ 0
    · exact ⟨"circular file must have a max size", by simp [makeFileCheckOpts, h0, hc, h1]⟩
    · exact ⟨"circular file cannot be ijson", by simp [makeFileCheckOpts, h0, hc, h1, hj]⟩
  · intro opts2 h2
    refine ⟨by simp [makeFileDescriptor, h2], ?_⟩
    unfold makeFileCheckOpts at h2
    split_ifs at h2 with h0 h1 hj hm
    · -- circular, rounding branch
      injection h2 with h2
      subst h2
      refine ⟨rfl, rfl, ?_, ?_⟩
      · intro hcf
        rw [hcf] at hm
        exact absurd hm.1 (by decide)
      · intro hc
        have hpos : 0 < opts.MaxSize := by
          by_contra hle
          exact h1 ⟨hm.1, by omega⟩
        have htd : opts.MaxSize.tdiv P = opts.MaxSize / P :=
          Int.tdiv_eq_ediv (le_of_lt hpos) (le_of_lt hP)
        have htm : opts.MaxSize.tmod P = opts.MaxSize % P :=
          Int.tmod_eq_emod (le_of_lt hpos) (le_of_lt hP)
        have hne : opts.MaxSize % P ≠ 0 := by rw [← htm]; exact hm.2
        have hrpos : 0 < opts.MaxSize % P :=
          lt_of_le_of_ne (Int.emod_nonneg _ (ne_of_gt hP)) (Ne.symm hne)
        have hrP : opts.MaxSize % P < P := Int.emod_lt_of_pos _ hP
        have he : P * (opts.MaxSize / P) + opts.MaxSize % P = opts.MaxSize :=
          Int.ediv_add_emod _ _
        have hd : (opts.MaxSize / P + 1) * P = P * (opts.MaxSize / P) + P := by ring
        show P ∣ (opts.MaxSize.tdiv P + 1) * P ∧
          opts.MaxSize ≤ (opts.MaxSize.tdiv P + 1) * P ∧
          (opts.MaxSize.tdiv P + 1) * P < opts.MaxSize + P
        rw [htd]
        refine ⟨dvd_mul_left P (opts.MaxSize / P + 1), ?_, ?_⟩
        · rw [hd]; linarith
        · rw [hd]; linarith
    · -- no rounding
      injection h2 with h2
      subst h2
      refine ⟨rfl, rfl, fun _ => rfl, ?_⟩
      intro hc
      have hnm : opts.MaxSize.tmod P = 0 := by
        by_contra hne
        exact hm ⟨hc, hne⟩
      have hpos : 0 < opts.MaxSize := by
        by_contra hle
        exact h1 ⟨hc, by omega⟩
      have hem : opts.MaxSize % P = 0 := by
        rw [← Int.tmod_eq_emod (le_of_lt hpos) (le_of_lt hP)]
        exact hnm
      refine ⟨?_, le_refl _, by omega⟩
      exact Int.dvd_of_emod_eq_zero hem

/-- Witness for the claim C3 theorem: circular `maxSize = 33` is rounded to
48, a multiple of 16. -/
theorem makeFile_validation_witness :
    makeFileDescriptor 16 0 ("b") ("f") emptyMeta
        { MaxSize := 33, Circular := true, IJson := false } =
      Except.ok (makeBlockFile 0 ("b") ("f") emptyMeta
        { MaxSize := 48, Circular := true, IJson := false }) ∧
    (16:Int) ∣ ({ MaxSize := 48, Circular := true, IJson := false } : FileOptsType).MaxSize := by
  have h := (makeFile_validation_and_rounding 16 0 ("b") ("f") emptyMeta
      { MaxSize := 33, Circular := true, IJson := false } (by decide)).2.2.2
      { MaxSize := 48, Circular := true, IJson := false } (by rfl)
  exact ⟨h.1, (h.2.2.2.2 rfl).1⟩

/-- Claim C4 counterexample: start from a cache whose only entry for the
key is deleted with zero pins and no write intentions; the backing store's
insert fails and `MakeFile` returns its error, yet the cache after the call
is empty — the tombstone entry was removed, so the cache state differs from
the one before the call. -/
theorem makeFile_insert_fail_cex :
    (MakeFile 16 0 (fun _ => Except.error ("insert failed")) tombCache ("b") ("f") emptyMeta
        { MaxSize := 0, Circular := false, IJson := false }).1 =
      Except.error ("insert failed") ∧
    (MakeFile 16 0 (fun _ => Except.error ("insert failed")) tombCache ("b") ("f") emptyMeta
        { MaxSize := 0, Circular := false, IJson := false }).2 = [] ∧
    tombCache ≠ [] :=
  ⟨rfl, rfl, List.cons_ne_nil _ _⟩

/-- Claim C4 (amended): if the backing store's insert fails, `MakeFile`
returns an error, and the cache state after the call equals the state
before the call except that a deleted entry with zero pins and no write
intentions for the key has been removed — the pre-insert check removes such
a tombstone and the removal is kept even though the insert fails. -/
theorem makeFile_insert_fail_cache_effect (P now : Int) (c : Cache)
    (blockId name : String) (meta : MetaMap) (opts : FileOptsType) (msg : String)
    (dbIns : BlockFile → Except String Unit) (hIns : ∀ f, dbIns f = Except.error msg) :
    (∃ e, (MakeFile P now dbIns c blockId name meta opts).1 = Except.error e) ∧
    (MakeFile P now dbIns c blockId name meta opts).2 =
      (match makeFileCheckOpts P opts with
       | Except.ok _ => eraseDrainedTombstone c ⟨blockId, name⟩
       | Except.error _ => c) := by
  cases hco : makeFileCheckOpts P opts with
  | error e =>
    refine ⟨⟨e, ?_⟩, ?_⟩ <;> simp [MakeFile, hco]
  | ok opts2 =>
    cases hlk : lookupCache c ⟨blockId, name⟩ with
    | none =>
      refine ⟨⟨msg, ?_⟩, ?_⟩ <;>
        simp [MakeFile, eraseDrainedTombstone, hco, hlk, hIns]
    | some entry =>
      by_cases hdel : entry.Deleted = false
      · refine ⟨⟨"file exists", ?_⟩, ?_⟩ <;>
          simp [MakeFile, eraseDrainedTombstone, hco, hlk, hdel]
      · have hdel2 : entry.Deleted = true := by
          cases h : entry.Deleted
          · exact absurd h hdel
          · rfl
        by_cases hdr : entry.PinCount = 0 ∧ entry.WriteIntentions = []
        · refine ⟨⟨msg, ?_⟩, ?_⟩ <;>
            simp [MakeFile, eraseDrainedTombstone, hco, hlk, hdel2, hdr, hIns]
        · refine ⟨⟨"file is deleted but has active requests", ?_⟩, ?_⟩ <;>
            simp [MakeFile, eraseDrainedTombstone, hco, hlk, hdel2, hdr]

/-- Witness for the claim C4 theorem: an always-failing insert on an empty
cache errors and leaves the cache empty. -/
theorem makeFile_insert_fail_witness :
    (∃ e, (MakeFile 16 0 (fun _ => Except.error ("down")) [] ("b") ("f") emptyMeta
        { MaxSize := 0, Circular := false, IJson := false }).1 = Except.error e) ∧
    (MakeFile 16 0 (fun _ => Except.error ("down")) [] ("b") ("f") emptyMeta
        { MaxSize := 0, Circular := false, IJson := false }).2 = [] := by
  have h := makeFile_insert_fail_cache_effect 16 0 [] ("b") ("f") emptyMeta
    { MaxSize := 0, Circular := false, IJson := false } ("down")
    (fun _ => Except.error ("down")) (fun f => rfl)
  exact ⟨h.1, h.2.trans (by rfl)⟩

/-- Claim C6: for a circular file, with `start = size - maxSize`: a write
lying entirely before the visible window (`offset + len(data) < start`)
succeeds and leaves the entry — contents, size and modification time —
unchanged; a write with `offset < start ≤ offset + len(data)` behaves
exactly like the same `WriteAt` at offset `start` with the leading
`start - offset` bytes of the data discarded. -/
theorem writeAt_circular_window (P now : Int) (db : Int → Option DataCacheEntry)
    (entry : CacheEntry) (fe : FileCacheEntry) (offset : Int) (data : List Nat)
    (hfe : entry.FileEntry = some fe)
    (hC : fe.File.Opts.Circular = true) (h0 : 0 ≤ offset)
    (hmax : 0 ≤ fe.File.Opts.MaxSize) :
    (offset + (data.length : Int) < fe.File.Size - fe.File.Opts.MaxSize →
      WriteAt P now db entry offset data = Except.ok entry) ∧
    (offset < fe.File.Size - fe.File.Opts.MaxSize →
      fe.File.Size - fe.File.Opts.MaxSize ≤ offset + (data.length : Int) →
      WriteAt P now db entry offset data =
        WriteAt P now db entry (fe.File.Size - fe.File.Opts.MaxSize)
          (data.drop (fe.File.Size - fe.File.Opts.MaxSize - offset).toNat)) := by
  have hlen : (0:Int) ≤ (data.length : Int) := Int.ofNat_nonneg _
  constructor
  · intro hlt
    have hn0 : ¬ offset < 0 := not_lt.2 h0
    have hn1 : ¬ offset > fe.File.Size := by omega
    simp only [WriteAt, hfe, if_neg hn0, if_neg hn1, if_pos (And.intro hC hlt)]
  · intro hlt hge
    have hn0 : ¬ offset < 0 := not_lt.2 h0
    have hn1 : ¬ offset > fe.File.Size := by omega
    have hA : ¬ (fe.File.Opts.Circular = true ∧
        offset + (data.length : Int) < fe.File.Size - fe.File.Opts.MaxSize) := by
      rintro ⟨-, hcon⟩
      omega
    have hlen2 : (0:Int) ≤
        ((data.drop (fe.File.Size - fe.File.Opts.MaxSize - offset).toNat).length : Int) :=
      Int.ofNat_nonneg _
    have hB0 : ¬ fe.File.Size - fe.File.Opts.MaxSize < 0 := by omega
    have hB1 : ¬ fe.File.Size - fe.File.Opts.MaxSize > fe.File.Size := by omega
    have hB2 : ¬ (fe.File.Opts.Circular = true ∧
        fe.File.Size - fe.File.Opts.MaxSize +
          ((data.drop (fe.File.Size - fe.File.Opts.MaxSize - offset).toNat).length : Int) <
          fe.File.Size - fe.File.Opts.MaxSize) := by
      rintro ⟨-, hcon⟩
      omega
    have hB3 : ¬ (fe.File.Opts.Circular = true ∧
        fe.File.Size - fe.File.Opts.MaxSize < fe.File.Size - fe.File.Opts.MaxSize) := by
      rintro ⟨-, hcon⟩
      exact lt_irrefl _ hcon
    simp only [WriteAt, hfe, if_neg hn0, if_neg hn1, if_neg hA, if_pos (And.intro hC hlt),
      if_neg hB0, if_neg hB1, if_neg hB2, if_neg hB3, if_true, if_false]

/-- Witness for the claim C6 theorem: an empty write far before the live
window of a circular file of size 100 succeeds with no effect. -/
theorem writeAt_circular_window_witness :
    WriteAt 16 0 noParts cirEntry 0 [] = Except.ok cirEntry :=
  (writeAt_circular_window 16 0 noParts cirEntry cirFe 0 [] (by rfl) (by rfl) (by decide)
    (by decide)).1 (by decide)

/-- Adding `k * P` to a nonnegative offset adds `k` to its truncated
quotient by `P`. -/
theorem tdiv_offset_add_mul {P offset : Int} (hP : 0 < P) (ho : 0 ≤ offset) (k : Nat) :
    (offset + (k : Int) * P).tdiv P = offset.tdiv P + (k : Int) := by
  have hkP : 0 ≤ (k : Int) * P := mul_nonneg (Int.ofNat_nonneg k) (le_of_lt hP)
  rw [Int.tdiv_eq_ediv (by omega) (le_of_lt hP), Int.tdiv_eq_ediv ho (le_of_lt hP),
    mul_comm ((k : Int)) P, Int.add_mul_ediv_left offset ((k : Int)) (ne_of_gt hP)]

/-- The part index at `offset + k * P` is the fold of the `k`-th index after
`offset`'s quotient. -/
theorem partIdxAtOffset_add_mul (P : Int) (f : BlockFile) (offset : Int) (hP : 0 < P)
    (ho : 0 ≤ offset) (k : Nat) :
    partIdxAtOffset P f (offset + (k : Int) * P) = foldPartIdx P f (offset.tdiv P + (k : Int)) := by
  simp only [partIdxAtOffset, foldPartIdx, tdiv_offset_add_mul hP ho k]

/-- The iteration count of the needed-parts loop, in closed form: the loop
runs from `offset`'s part through `(offset + size)`'s part. -/
theorem partsNeeded_count {P a b : Int} (hP : 0 < P) (ha : 0 ≤ a) (hab : a ≤ b) :
    (b - b.tmod P + P - a + P - 1).tdiv P = b / P - a / P + 1 := by
  have hPle : (0:Int) ≤ P := le_of_lt hP
  have hb : 0 ≤ b := le_trans ha hab
  rw [Int.tmod_eq_emod hb hPle]
  have e1 : P * (b / P) + b % P = b := Int.ediv_add_emod b P
  have e0 : P * (a / P) + a % P = a := Int.ediv_add_emod a P
  have hr10 : 0 ≤ b % P := Int.emod_nonneg b (ne_of_gt hP)
  have hr1P : b % P < P := Int.emod_lt_of_pos b hP
  have hr00 : 0 ≤ a % P := Int.emod_nonneg a (ne_of_gt hP)
  have hr0P : a % P < P := Int.emod_lt_of_pos a hP
  have hq : a / P ≤ b / P := Int.ediv_le_ediv hP hab
  have hdist : P * (b / P - a / P + 1) = P * (b / P) - P * (a / P) + P := by ring
  have hdecomp : b - b % P + P - a + P - 1 =
      (P - 1 - a % P) + P * (b / P - a / P + 1) := by
    rw [hdist]
    linarith
  have hQ0 : 0 ≤ P * (b / P - a / P + 1) :=
    mul_nonneg hPle (by linarith)
  rw [hdecomp, Int.tdiv_eq_ediv (by linarith) hPle,
    ediv_of_decomp hP (by linarith) (by linarith)]

/-- Claim C7 counterexample: for a plain file with `PartSize = 16`,
`ReadAt(offset = 0, size = 16)` requests parts `[0, 1]`, while the part
containing the last requested byte (offset 15) is part 0 — an extra part
beyond the claimed range is requested. -/
theorem readAt_parts_extra_part_cex :
    partsNeededList 16 (plainFile 100) 0 16 = [0, 1] ∧
    partIdxAtOffset 16 (plainFile 100) (0 + 16 - 1) = 0 :=
  ⟨by decide, by decide⟩

/-- Claim C7 (amended): for `size > 0` the parts `ReadAt` requests are
exactly the (circularly folded) consecutive indices from
`floor(offset / PartSize)` through `floor((offset + size) / PartSize)` —
that is, through the part containing byte `offset + size`; this exceeds the
part containing the last read byte `offset + size - 1` by one exactly when
`offset + size` is a multiple of `PartSize`. -/
theorem partsNeeded_range_characterization (P : Int) (file : BlockFile) (offset size : Int)
    (hP : 0 < P) (ho : 0 ≤ offset) (hs : 0 < size) :
    partsNeededList P file offset size =
      (List.range ((offset + size).tdiv P - offset.tdiv P + 1).toNat).map
        (fun (k : Nat) => foldPartIdx P file (offset.tdiv P + (k : Int))) := by
  have hPle : (0:Int) ≤ P := le_of_lt hP
  have hfun : (fun k : Nat => partIdxAtOffset P file (offset + (k : Int) * P)) =
      (fun k : Nat => foldPartIdx P file (offset.tdiv P + (k : Int))) :=
    funext (fun k => partIdxAtOffset_add_mul P file offset hP ho k)
  simp only [partsNeededList]
  rw [hfun]
  have hcount : (offset + size - (offset + size).tmod P + P - offset + P - 1).tdiv P =
      (offset + size) / P - offset / P + 1 := partsNeeded_count hP ho (by omega)
  have ht1 : (offset + size).tdiv P = (offset + size) / P := Int.tdiv_eq_ediv (by omega) hPle
  have ht0 : offset.tdiv P = offset / P := Int.tdiv_eq_ediv ho hPle
  rw [hcount, ht1, ht0]

/-- Witness for the claim C7 theorem at `P = 16`, `offset = 8`,
`size = 9`. -/
theorem partsNeeded_range_witness :
    partsNeededList 16 (plainFile 100) 8 9 =
      (List.range (((8:Int) + 9).tdiv 16 - (8:Int).tdiv 16 + 1).toNat).map
        (fun (k : Nat) => foldPartIdx 16 (plainFile 100) ((8:Int).tdiv 16 + (k : Int))) :=
  partsNeeded_range_characterization 16 (plainFile 100) 8 9 (by decide) (by decide) (by decide)

/-- A key absent from the given pairs looks up to nothing. -/
theorem metaLookup_eq_none_of_not_mem (given : List (String × Option JVal)) (k : String)
    (h : k ∉ given.map Prod.fst) : metaLookup given k = none := by
  induction given with
  | nil => rfl
  | cons kv rest ih =>
    simp only [List.map_cons, List.mem_cons, not_or] at h
    have hne : ¬ kv.1 = k := fun he => h.1 he.symm
    simp only [metaLookup, if_neg hne]
    exact ih h.2

/-- The merge fold of `WriteMeta`, characterized by lookups: a key given as
`none` (Go `nil`) ends up deleted, a key given with a value ends up
assigned, and a key not given keeps its previous binding. -/
theorem mergeFold_lookup (given : List (String × Option JVal)) (acc : MetaMap) (k : String)
    (hnd : (given.map Prod.fst).Nodup) :
    given.foldl mergeStep acc k =
      (match metaLookup given k with
       | none => acc k
       | some none => none
       | some (some v) => some (some v)) := by
  induction given generalizing acc with
  | nil => rfl
  | cons kv rest ih =>
    rw [List.map_cons, List.nodup_cons] at hnd
    rw [List.foldl_cons]
    by_cases hk : kv.1 = k
    · have hrest : metaLookup rest k = none :=
        metaLookup_eq_none_of_not_mem rest k (by rw [← hk]; exact hnd.1)
      rw [ih (mergeStep acc kv) hnd.2, hrest]
      simp only [metaLookup, if_pos hk]
      cases hv : kv.2 with
      | none => simp [mergeStep, hv, if_pos hk.symm]
      | some v => simp [mergeStep, hv, if_pos hk.symm]
    · rw [ih (mergeStep acc kv) hnd.2]
      simp only [metaLookup, if_neg hk]
      have hk2 : ¬ k = kv.1 := fun he => hk he.symm
      cases hml : metaLookup rest k with
      | none =>
        cases hv : kv.2 with
        | none => simp [mergeStep, hv, hk2]
        | some v => simp [mergeStep, hv, hk2]
      | some o => cases o <;> rfl

/-- Claim C8: `WriteMeta` with merge deletes every top-level key whose
given value is null and assigns every other given key, leaving ungiven keys
alone; with merge off it replaces the whole mapping; and the concrete
scenario: replace with `{k2: "v", k3: 3}` then merge `{k1: 1, k2: null}`
leaves the meta mapping equal to `{k1: 1, k3: 3}`. -/
theorem writeMeta_merge_replace_semantics (file : BlockFile)
    (given : List (String × Option JVal)) (k : String)
    (hnd : (given.map Prod.fst).Nodup) :
    ((WriteMeta file given true).Meta k =
      (match metaLookup given k with
       | none => file.Meta k
       | some none => none
       | some (some v) => some (some v))) ∧
    ((WriteMeta file given false).Meta = metaToFun given) ∧
    (∀ k2, metaScenFile.Meta k2 =
      metaToFun [("k1", some (JVal.num 1)), ("k3", some (JVal.num 3))] k2) := by
  refine ⟨mergeFold_lookup given file.Meta k hnd, rfl, ?_⟩
  intro k2
  by_cases h1 : k2 = "k1"
  · subst h1; decide
  by_cases h2 : k2 = "k2"
  · subst h2; decide
  by_cases h3 : k2 = "k3"
  · subst h3; decide
  show (metaGiven2.foldl mergeStep (metaToFun metaGiven1)) k2 = _
  simp only [metaGiven1, metaGiven2, metaToFun, metaLookup, mergeStep, List.foldl_cons,
    List.foldl_nil, if_neg (fun he : k2 = "k2" => h2 he), if_neg (fun he : k2 = "k1" => h1 he),
    if_neg (fun he : ("k1" : String) = k2 => h1 he.symm),
    if_neg (fun he : ("k2" : String) = k2 => h2 he.symm),
    if_neg (fun he : ("k3" : String) = k2 => h3 he.symm)]

/-- Witness for the claim C8 theorem: merging `{k1: 1, k2: null}` into the
empty mapping deletes `k2`. -/
theorem writeMeta_merge_replace_witness :
    (WriteMeta (plainFile 0) metaGiven2 true).Meta ("k2") =
      (match metaLookup metaGiven2 ("k2") with
       | none => (plainFile 0).Meta ("k2")
       | some none => none
       | some (some v) => some (some v)) :=
  (writeMeta_merge_replace_semantics (plainFile 0) metaGiven2 ("k2") (by decide)).1

end Blockstore
